import Mathlib

/-!
Shallow embedding of the snapshot-ingestion core of `src/vms.py`
(velib-metropole-stats): Python value model, record parsers,
duplicate resolver and change-coalescing store, with theorems about
the behaviour the specification describes.
-/

set_option linter.unusedVariables false

deriving instance DecidableEq for Except

namespace Vms

/-- Model of a Python float value: finite doubles are kept as exact
rationals; the special values infinity, negative infinity and NaN are
explicit constructors.  (Binary rounding of decimal literals to doubles
is not modelled: finite values stay exact.) -/
inductive PyFloat where
  | finite (q : ℚ)
  | inf
  | ninf
  | nan
deriving DecidableEq, Repr

/-- Python `==` on floats: NaN compares unequal to everything, itself
included; finite values compare by numeric value. -/
def PyFloat.pyEq : PyFloat → PyFloat → Bool
  | .finite a, .finite b => a == b
  | .inf, .inf => true
  | .ninf, .ninf => true
  | _, _ => false

/-- Model of a Python value as it arrives from `json.loads`: strings,
ints, floats (JSON numbers, including `Infinity`/`NaN` which Python's
json module accepts) and `None` (JSON null). -/
inductive PyVal where
  | str (s : String)
  | int (n : Int)
  | float (x : PyFloat)
  | none
deriving DecidableEq, Repr

/-- Python `==` across the value kinds above: same-kind values compare
by content (floats via `PyFloat.pyEq`), and ints compare numerically
equal to the corresponding finite float; all other cross-kind
comparisons are unequal. -/
def PyVal.pyEq : PyVal → PyVal → Bool
  | .str a, .str b => a == b
  | .int a, .int b => a == b
  | .float a, .float b => a.pyEq b
  | .int a, .float b => (PyFloat.finite (a : ℚ)).pyEq b
  | .float a, .int b => a.pyEq (PyFloat.finite (b : ℚ))
  | .none, .none => true
  | _, _ => false

/-- The Python exceptions the source code catches or lets escape. -/
inductive PyErr where
  | typeError
  | keyError
  | valueError
  | overflowError
  | nameError
deriving DecidableEq, Repr

/-- The exception kinds raised by `vms.py` itself, plus a constructor
for Python exceptions that escape uncaught. -/
inductive VmsError where
  | vmsException (msg : String)
  | apiParsingException (msg : String)
  | dataConflict (msg : String)
  | pyError (e : PyErr)
deriving DecidableEq, Repr

namespace Python

/-- Digit list to natural number. -/
def digitsToNat (l : List Char) : Nat :=
  l.foldl (fun a c => a * 10 + (c.toNat - 48)) 0

/-- All characters are decimal digits. -/
def allDigits (l : List Char) : Bool := l.all (·.isDigit)

/-- 10 to an integer power, as a rational. -/
def qpow10 (e : Int) : ℚ :=
  if 0 ≤ e then ((10 : ℚ) ^ e.toNat) else 1 / ((10 : ℚ) ^ (-e).toNat)

/-- Split a character list on a separator character. -/
def splitOnChar (sep : Char) : List Char → List (List Char)
  | [] => [[]]
  | c :: rest =>
    let r := splitOnChar sep rest
    if c == sep then [] :: r
    else
      match r with
      | g :: gs => (c :: g) :: gs
      | [] => [[c]]

/-- Strip whitespace from both ends, as `str.strip()` does before float
conversion. -/
def stripWs (l : List Char) : List Char :=
  ((l.dropWhile (·.isWhitespace)).reverse.dropWhile (·.isWhitespace)).reverse

/-- Split an optional leading `+`/`-` sign from a character list. -/
def splitSign : List Char → Bool × List Char
  | '-' :: rest => (true, rest)
  | '+' :: rest => (false, rest)
  | l => (false, l)

/-- Decimal mantissa `digits[.digits]` with at least one digit, as in
Python's float literal grammar (underscore separators not modelled). -/
def parseDecimalMantissa (s : List Char) : Option ℚ :=
  match splitOnChar '.' s with
  | [w] =>
    if w.length > 0 && allDigits w then some ((digitsToNat w : ℚ))
    else Option.none
  | [w, f] =>
    if (w.length + f.length > 0) && allDigits w && allDigits f then
      some ((digitsToNat w : ℚ) + (digitsToNat f : ℚ) / (10 : ℚ) ^ f.length)
    else Option.none
  | _ => Option.none

/-- Signed decimal integer for a float exponent. -/
def parseExpInt (s : List Char) : Option Int :=
  let (neg, body) := splitSign s
  if body.length > 0 && allDigits body then
    some (if neg then -(digitsToNat body : Int) else (digitsToNat body : Int))
  else Option.none

/-- Unsigned body of a Python float string: `inf`, `infinity`, `nan`,
or a decimal mantissa with optional exponent. -/
def parseFloatBody (s : List Char) : Option PyFloat :=
  if s == "inf".data || s == "infinity".data then some PyFloat.inf
  else if s == "nan".data then some PyFloat.nan
  else
    match splitOnChar 'e' s with
    | [m] => (parseDecimalMantissa m).map PyFloat.finite
    | [m, ex] =>
      match parseDecimalMantissa m, parseExpInt ex with
      | some mq, some e => some (PyFloat.finite (mq * qpow10 e))
      | _, _ => Option.none
    | _ => Option.none

/-- Negate a float value (used for a leading minus sign). -/
def pyNeg : PyFloat → PyFloat
  | .finite q => .finite (-q)
  | .inf => .ninf
  | .ninf => .inf
  | .nan => .nan

/-- Python's float-from-string conversion: surrounding whitespace is
stripped, case is ignored, an optional sign precedes the body.
(Overflow of huge decimal literals to infinity is not modelled.) -/
def parseFloatString (s : String) : Option PyFloat :=
  let t := (stripWs s.data).map Char.toLower
  let (neg, body) := splitSign t
  (parseFloatBody body).map (fun x => if neg then pyNeg x else x)

/-- Model of the builtin `float(value)` on the value kinds occurring in
feed payloads: floats pass through, ints widen, strings go through the
float literal grammar (`ValueError` on failure), `None` raises
`TypeError`. -/
def float : PyVal → Except PyErr PyFloat
  | .float x => .ok x
  | .int n => .ok (.finite (n : ℚ))
  | .none => .error .typeError
  | .str s =>
    match parseFloatString s with
    | some x => .ok x
    | Option.none => .error .valueError

/-- Signed decimal integer string accepted by the builtin `int(str)`. -/
def parseIntString (s : String) : Option Int :=
  let (neg, body) := splitSign (stripWs s.data)
  if body.length > 0 && allDigits body then
    some (if neg then -(digitsToNat body : Int) else (digitsToNat body : Int))
  else Option.none

/-- Truncation toward zero, as the builtin `int(float)` does. -/
def ratTruncTowardZero (q : ℚ) : Int := Int.tdiv q.num (q.den : Int)

/-- Model of the builtin `int(value)`: ints pass through, finite floats
truncate toward zero, infinities raise `OverflowError`, NaN raises
`ValueError`, strings must be decimal integer literals, `None` raises
`TypeError`. -/
def int : PyVal → Except PyErr Int
  | .int n => .ok n
  | .float (.finite q) => .ok (ratTruncTowardZero q)
  | .float .inf => .error .overflowError
  | .float .ninf => .error .overflowError
  | .float .nan => .error .valueError
  | .none => .error .typeError
  | .str s =>
    match parseIntString s with
    | some n => .ok n
    | Option.none => .error .valueError

end Python

/-- Dictionary key lookup: an absent key raises `KeyError`. -/
def getKey (v : Option PyVal) : Except VmsError PyVal :=
  match v with
  | some x => .ok x
  | Option.none => .error (.pyError .keyError)

/-- Lift a Python builtin's result into the domain error type, the
exception escaping uncaught for now (the enclosing `except` clause of
the caller decides what is converted). -/
def liftPy (r : Except PyErr α) : Except VmsError α :=
  match r with
  | .ok a => .ok a
  | .error e => .error (.pyError e)

/-- An `except (TypeError, KeyError, ValueError)` handler re-raising
`ApiParsingException`: exactly those three exception kinds are
converted, everything else propagates unchanged. -/
def catchParse (msg : String) (r : Except VmsError α) : Except VmsError α :=
  match r with
  | .error (.pyError .typeError) => .error (.apiParsingException msg)
  | .error (.pyError .keyError) => .error (.apiParsingException msg)
  | .error (.pyError .valueError) => .error (.apiParsingException msg)
  | other => other

/-- A raw `gps` mapping: each field either present with a Python value
or absent. -/
structure RawGps where
  latitude : Option PyVal
  longitude : Option PyVal
deriving DecidableEq, Repr

/-- `GpsCoordinates`: a validated pair of coordinates, each a Python
float (which may be infinite or NaN — `float()` accepts those). -/
structure GpsCoordinates where
  latitude : PyFloat
  longitude : PyFloat
deriving DecidableEq, Repr

/-- `GpsCoordinates.__init__`: runs `float()` on both arguments; a
`ValueError` from either conversion is caught and re-raised as
`VmsException`; any other exception (e.g. `TypeError` from `None`)
propagates. -/
def GpsCoordinates.init (latitude longitude : PyVal) : Except VmsError GpsCoordinates :=
  match Python.float latitude with
  | .error .valueError => .error (.vmsException "Invalid latitude or longitude")
  | .error e => .error (.pyError e)
  | .ok la =>
    match Python.float longitude with
    | .error .valueError => .error (.vmsException "Invalid latitude or longitude")
    | .error e => .error (.pyError e)
    | .ok lo => .ok ⟨la, lo⟩

/-- `GpsCoordinates.from_dict`: looks up both keys and calls the
constructor; `TypeError`, `KeyError` and `ValueError` are caught and
re-raised as `ApiParsingException` (note the constructor has already
turned a `ValueError` into an uncaught `VmsException`). -/
def GpsCoordinates.from_dict (data : RawGps) : Except VmsError GpsCoordinates :=
  catchParse "Cannot build gps coordinates" (do
    let la ← getKey data.latitude
    let lo ← getKey data.longitude
    GpsCoordinates.init la lo)

/-- The specification's acceptance criterion for a coordinate field,
stated in its own words for comparison with the code: the field is
present and converts to a finite real number. -/
def specConvertibleToFiniteReal (v : Option PyVal) : Bool :=
  match v with
  | some x =>
    match Python.float x with
    | .ok (.finite _) => true
    | _ => false
  | Option.none => false

/-- A coordinate field the code actually accepts: present and
convertible by `float()` to any float value, finite or not. -/
def convertibleToReal (v : Option PyVal) : Bool :=
  match v with
  | some x => (Python.float x).isOk
  | Option.none => false

/-- Model of the SQL `MAX` aggregate over a column: `none` on an empty
selection. -/
def sqlMax : List Int → Option Int
  | [] => Option.none
  | x :: xs =>
    match sqlMax xs with
    | Option.none => some x
    | some m => some (max x m)

/-- A history table is a list of rows in commit order; a row append
goes at the end.  `StationCommon.get_latest_up_to_self`: the row of the
same station whose `moment` equals `MAX(moment)` among rows with
`moment <= self.moment`; `None` when no such row exists.  Generic over
the concrete row type, as the Python mixin is. -/
def StationCommon.get_latest_up_to_self (moment code : α → Int)
    (self : α) (store : List α) : Option α :=
  match sqlMax ((store.filter (fun r => decide (code r = code self) && decide (moment r ≤ moment self))).map moment) with
  | Option.none => Option.none
  | some m => (store.filter (fun r => decide (code r = code self) && decide (moment r = m))).head?

/-- `StationCommon.save_if_changed`: insert unconditionally when no
prior row exists; raise when the prior is strictly later than `self`;
insert when the prior is strictly earlier and `has_changed`; otherwise
write nothing.  Returns the number of rows written (an insert returns
1, as peewee's `save` does) together with the resulting table. -/
def StationCommon.save_if_changed (moment code : α → Int) (has_changed : α → α → Bool)
    (self : α) (store : List α) : Except VmsError (Nat × List α) :=
  match StationCommon.get_latest_up_to_self moment code self store with
  | Option.none => .ok (1, store ++ [self])
  | some previous =>
    if moment self < moment previous then
      .error (.vmsException "Previous is futher in the future than current")
    else if moment previous < moment self then
      if has_changed self previous then .ok (1, store ++ [self])
      else .ok (0, store)
    else
      .ok (0, store)

/-- `StationInfo`: the slow-changing attributes of a station at one
observation moment.  `state` and `name` are stored as the raw Python
values the feed supplied (the source assigns them unconverted). -/
structure StationInfo where
  moment : Int
  state : PyVal
  name : PyVal
  stype : Bool
  code : Int
  due_date : Option Int
  gps_latitude : PyFloat
  gps_longitude : PyFloat
deriving DecidableEq, Repr

/-- `StationInfo.has_changed`: compare everything except `moment` and
`code`, with Python `!=` semantics per field. -/
def StationInfo.has_changed (self other : StationInfo) : Bool :=
  !(self.state.pyEq other.state)
  || !(self.name.pyEq other.name)
  || self.stype != other.stype
  || self.due_date != other.due_date
  || !(self.gps_latitude.pyEq other.gps_latitude)
  || !(self.gps_longitude.pyEq other.gps_longitude)

/-- `StationInfo.save_if_changed`, the mixin method at the
`StationInfo` row type. -/
def StationInfo.save_if_changed (self : StationInfo) (store : List StationInfo) :
    Except VmsError (Nat × List StationInfo) :=
  StationCommon.save_if_changed StationInfo.moment StationInfo.code StationInfo.has_changed self store

/-- `StationRecord`: the live counts and flags of a station at one
observation moment. -/
structure StationRecord where
  moment : Int
  code : Int
  overflow : Bool
  max_bike_overflow : Int
  nb_e_bike_overflow : Int
  kiosk_state : Bool
  density_level : Int
  nb_ebike : Int
  nb_free_dock : Int
  nb_dock : Int
  nb_bike_overflow : Int
  nb_e_dock : Int
  credit_card : Bool
  nb_bike : Int
  nb_free_e_dock : Int
  overflow_activation : Bool
deriving DecidableEq, Repr

/-- `StationRecord.has_changed`: compare everything except `moment` and
`code`. -/
def StationRecord.has_changed (self other : StationRecord) : Bool :=
  self.overflow != other.overflow
  || self.max_bike_overflow != other.max_bike_overflow
  || self.nb_e_bike_overflow != other.nb_e_bike_overflow
  || self.kiosk_state != other.kiosk_state
  || self.density_level != other.density_level
  || self.nb_ebike != other.nb_ebike
  || self.nb_free_dock != other.nb_free_dock
  || self.nb_dock != other.nb_dock
  || self.nb_bike_overflow != other.nb_bike_overflow
  || self.nb_e_dock != other.nb_e_dock
  || self.credit_card != other.credit_card
  || self.nb_bike != other.nb_bike
  || self.nb_free_e_dock != other.nb_free_e_dock
  || self.overflow_activation != other.overflow_activation

/-- `StationRecord.save_if_changed`, the mixin method at the
`StationRecord` row type. -/
def StationRecord.save_if_changed (self : StationRecord) (store : List StationRecord) :
    Except VmsError (Nat × List StationRecord) :=
  StationCommon.save_if_changed StationRecord.moment StationRecord.code StationRecord.has_changed self store

/-- The composite-primary-key constraint of both history tables: no two
rows share `(moment, code)`. -/
def UniqueKeys (moment code : α → Int) (store : List α) : Prop :=
  ∀ x ∈ store, ∀ y ∈ store, code x = code y → moment x = moment y → x = y

/-- Concrete fixture: a station-info row as parsed from the feed
example in the source docstrings. -/
def infoA : StationInfo :=
  { moment := 100
  , state := .str "Operative"
  , name := .str "Assas - Luxembourg"
  , stype := true
  , code := 6008
  , due_date := some 1514761200
  , gps_latitude := .finite 48
  , gps_longitude := .finite 2 }

/-- Concrete fixture: a later observation of the same station with a
changed name. -/
def infoB : StationInfo := { infoA with moment := 200, name := .str "Assas" }

/-- Concrete fixture: a stored row of station 1 at moment 10. -/
def infoLate : StationInfo := { infoA with moment := 10, code := 1 }

/-- Concrete fixture: a record of station 1 at the strictly earlier
moment 7. -/
def infoEarly : StationInfo :=
  { infoA with moment := 7, code := 1, name := .str "Other" }

/-- `StationSample`: the pairing of one `StationInfo` and one
`StationRecord` produced per feed entry. -/
structure StationSample where
  _info : StationInfo
  _record : StationRecord
deriving DecidableEq, Repr

/-- One station's rows of the input, in input order. -/
def filterCode (l : List StationSample) (c : Int) : List StationSample :=
  l.filter (fun sample => decide (sample._info.code = c))

/-- Append a key to the key list unless already present (the effect of
`sample_bins[code] = group` on dict key order). -/
def insertKey (ks : List Int) (k : Int) : List Int :=
  if k ∈ ks then ks else ks ++ [k]

/-- Accumulate the station codes of a batch in first-occurrence order. -/
def orderedKeysAux (ks : List Int) : List StationSample → List Int
  | [] => ks
  | sample :: rest => orderedKeysAux (insertKey ks sample._info.code) rest

/-- The station codes of a batch in first-occurrence order: the key
order of the Python dict built by the grouping loop. -/
def orderedKeys (l : List StationSample) : List Int := orderedKeysAux [] l

/-- The grouping loop of `remove_duplicate_code` (`sample_bins`): an
insertion-ordered dictionary from station code to that code's samples
in input order, modelled as an association list. -/
def groupByCode (l : List StationSample) : List (Int × List StationSample) :=
  (orderedKeys l).map (fun k => (k, filterCode l k))

/-- The Operative filter applied to a duplicate group
(`[sample for sample in samples if sample._info.state == "Operative"]`). -/
def operativeOnly (samples : List StationSample) : List StationSample :=
  samples.filter (fun sample => sample._info.state.pyEq (PyVal.str "Operative"))

/-- The duplicate-handling loop of `remove_duplicate_code`: walks the
bins in key order; size-1 groups are skipped; larger groups are
filtered to Operative entries, raising when more than one remains,
otherwise stored back filtered.  Also tracks the final value of the
loop variable `samples` (the last group processed, post-filter), which
the buggy return expression captures; `Option.none` when the loop
body never ran. -/
def StationSample.dedupLoop :
    List (Int × List StationSample) → List (Int × List StationSample) →
    Option (List StationSample) →
    Except VmsError (List (Int × List StationSample) × Option (List StationSample))
  | [], done, last => .ok (done, last)
  | (code, samples) :: rest, done, _ =>
    if samples.length = 1 then
      StationSample.dedupLoop rest (done ++ [(code, samples)]) (some samples)
    else
      if (operativeOnly samples).length > 1 then
        .error (.dataConflict "Could not auto-fix duplicate samples found")
      else
        StationSample.dedupLoop rest (done ++ [(code, operativeOnly samples)]) (some (operativeOnly samples))

/-- `StationSample.remove_duplicate_code`.  The final statement
`return (sample for sample in samples for samples in sample_bins.values())`
has its two `for` clauses in the wrong order: the generator's first
iterable is the *current value of the local variable `samples`* (the
last group processed, post-filter — evaluated eagerly when the
generator expression is created, and a `NameError` when the loop never
ran, i.e. on an empty input), and each of its elements is yielded once
per entry of `sample_bins.values()`.  The output is therefore the last
group's samples, each repeated once per station code — not the
flattened bins. -/
def StationSample.remove_duplicate_code (iterable : List StationSample) :
    Except VmsError (List StationSample) :=
  match StationSample.dedupLoop (groupByCode iterable) [] Option.none with
  | .error e => .error e
  | .ok (_, Option.none) => .error (.pyError .nameError)
  | .ok (bins, some lastSamples) =>
    .ok ((lastSamples.map (fun sample => bins.map (fun _ => sample))).flatten)

/-- What the loop leaves in a bin: untouched when of size 1, otherwise
filtered to Operative entries. -/
def processGroup (g : List StationSample) : List StationSample :=
  if g.length = 1 then g else operativeOnly g

/-- The bins after the duplicate-handling loop. -/
def processedBins (bins : List (Int × List StationSample)) :
    List (Int × List StationSample) :=
  bins.map (fun p => (p.1, processGroup p.2))

/-- The final value of the loop variable `samples`: the last bin's
processed group, or the initial value when there are no bins. -/
def lastProcessed (bins : List (Int × List StationSample))
    (last : Option (List StationSample)) : Option (List StationSample) :=
  match bins.getLast? with
  | Option.none => last
  | some p => some (processGroup p.2)

/-- Concrete fixture: a station-record row matching `infoA`. -/
def recA : StationRecord :=
  { moment := 100
  , code := 6008
  , overflow := false
  , max_bike_overflow := 0
  , nb_e_bike_overflow := 0
  , kiosk_state := false
  , density_level := 0
  , nb_ebike := 2
  , nb_free_dock := 0
  , nb_dock := 0
  , nb_bike_overflow := 0
  , nb_e_dock := 35
  , credit_card := false
  , nb_bike := 7
  , nb_free_e_dock := 25
  , overflow_activation := false }

/-- Concrete fixture: a singleton sample of station 1, Operative. -/
def sample1 : StationSample :=
  ⟨{ infoA with code := 1 }, { recA with code := 1 }⟩

/-- Concrete fixture: a singleton sample of station 2, Operative. -/
def sample2 : StationSample :=
  ⟨{ infoA with code := 2, name := .str "Second" }, { recA with code := 2 }⟩

/-- Concrete fixture: station 1, Operative (duplicate-group member). -/
def s1op : StationSample := sample1

/-- Concrete fixture: station 1, Work in progress (duplicate-group
member). -/
def s1wip : StationSample :=
  ⟨{ infoA with code := 1, state := .str "Work in progress", name := .str "WIP" },
   { recA with code := 1, nb_bike := 0 }⟩

/-- Concrete fixture: a second Operative sample of station 1 with a
different name. -/
def s1opB : StationSample :=
  ⟨{ infoA with code := 1, name := .str "Duplicate" }, { recA with code := 1 }⟩

/-- Concrete fixture: two Work-in-progress samples of station 1. -/
def w1 : StationSample := s1wip

/-- Concrete fixture: another Work-in-progress sample of station 1. -/
def w2 : StationSample :=
  ⟨{ infoA with code := 1, state := .str "Work in progress", name := .str "WIP2" },
   { recA with code := 1, nb_bike := 1 }⟩

/-- `VelibMetropoleApi.bool_from_yes_no_str`: the literal string "yes"
maps to true, "no" to false, anything else raises
`ApiParsingException`. -/
def VelibMetropoleApi.bool_from_yes_no_str (value : PyVal) : Except VmsError Bool :=
  if value.pyEq (.str "yes") then .ok true
  else if value.pyEq (.str "no") then .ok false
  else .error (.apiParsingException "Invalid value for boolean conversion")

/-- A raw station-info mapping (`data['station']` of a feed entry):
each field either present with a Python value or absent. -/
structure RawStationInfo where
  state : Option PyVal
  name : Option PyVal
  type : Option PyVal
  code : Option PyVal
  dueDate : Option PyVal
  gps : Option RawGps
deriving DecidableEq, Repr

/-- Lookup of the `gps` sub-mapping: an absent key raises `KeyError`. -/
def getGps (v : Option RawGps) : Except VmsError RawGps :=
  match v with
  | some g => .ok g
  | Option.none => .error (.pyError .keyError)

/-- `StationInfo.from_dict`: builds the record field by field in the
source's keyword order (`state`, `name`, `type` via the yes/no
conversion, `code` via `int()`, the gps floats via `float()`, and
`dueDate` last — `int(data['dueDate'])` when the value is not `None`,
else left unset).  `TypeError`, `KeyError` and `ValueError` are caught
and re-raised as `ApiParsingException`; other exceptions (including
the `ApiParsingException` from the yes/no conversion) propagate. -/
def StationInfo.from_dict (moment : Int) (data : RawStationInfo) :
    Except VmsError StationInfo :=
  catchParse "Cannot build station information" (do
    let stateV ← getKey data.state
    let nameV ← getKey data.name
    let typeV ← getKey data.type
    let stype ← VelibMetropoleApi.bool_from_yes_no_str typeV
    let codeV ← getKey data.code
    let code ← liftPy (Python.int codeV)
    let g ← getGps data.gps
    let latV ← getKey g.latitude
    let la ← liftPy (Python.float latV)
    let lonV ← getKey g.longitude
    let lo ← liftPy (Python.float lonV)
    let ddV ← getKey data.dueDate
    let dd ← match ddV with
      | PyVal.none => pure Option.none
      | v => do
        let n ← liftPy (Python.int v)
        pure (some n)
    pure { moment := moment, state := stateV, name := nameV, stype := stype,
           code := code, due_date := dd, gps_latitude := la, gps_longitude := lo })

/-- Concrete fixture: a fully valid raw station-info mapping, as in
the source docstring example. -/
def rawEntryA : RawStationInfo :=
  { state := some (.str "Operative")
  , name := some (.str "Assas - Luxembourg")
  , type := some (.str "yes")
  , code := some (.str "6008")
  , dueDate := some (.float (.finite 1514761200))
  , gps := some ⟨some (.float (.finite 48)), some (.float (.finite 2))⟩ }

/-- Concrete fixture: a gps mapping whose latitude is the float
infinity (e.g. JSON `Infinity`, which Python's json module accepts). -/
def gpsInf : RawGps := ⟨some (.float .inf), some (.float (.finite 2))⟩

/-- The persisted history: the two append-only station tables. -/
structure Db where
  station_info : List StationInfo
  station_record : List StationRecord
deriving DecidableEq, Repr

/-- `StationSample.save_all_if_changed`: runs the coalescing store on
the info half then the record half, summing the rows written. -/
def StationSample.save_all_if_changed (sample : StationSample) (db : Db) :
    Except VmsError (Nat × Db) := do
  let (n1, infos) ← StationInfo.save_if_changed sample._info db.station_info
  let (n2, records) ← StationRecord.save_if_changed sample._record db.station_record
  .ok (n1 + n2, ⟨infos, records⟩)

/-- The per-snapshot persistence loop of `App.do_work`
(`for entry in station_records: new_records_count += entry.save_all_if_changed()`):
threads the history through every sample of the batch, accumulating
the count of rows written, stopping at the first error. -/
def App.processSamples (samples : List StationSample) (db : Db) :
    Except VmsError (Nat × Db) :=
  match samples with
  | [] => .ok (0, db)
  | sample :: rest => do
    let (n, db') ← sample.save_all_if_changed db
    let (m, db'') ← App.processSamples rest db'
    .ok (n + m, db'')

/-- Modelled from the spec: `DATABASE.atomic()` — the transactional
unit of work of the storage collaborator wrapped around the loop in
`App.do_work` — is not code of this repository (it is peewee's context
manager); per the specification it commits the fully processed batch
on success and rolls the history back to its pre-run state when an
exception escapes the block. -/
def App.commitBatch (samples : List StationSample) (db : Db) : Db :=
  match App.processSamples samples db with
  | .ok (_, db') => db'
  | .error _ => db

theorem sqlMax_eq_none_iff (l : List Int) : sqlMax l = Option.none ↔ l = [] := by
  cases l with
  | nil => simp [sqlMax]
  | cons x xs =>
    simp only [sqlMax]
    cases sqlMax xs <;> simp

theorem sqlMax_mem {l : List Int} {m : Int} (h : sqlMax l = some m) : m ∈ l := by
  induction l generalizing m with
  | nil => simp [sqlMax] at h
  | cons x xs ih =>
    simp only [sqlMax] at h
    cases hx : sqlMax xs with
    | none =>
      rw [hx] at h
      simp at h
      simp [h]
    | some m' =>
      rw [hx] at h
      simp at h
      rcases max_choice x m' with hc | hc <;> rw [hc] at h
      · simp [h]
      · exact List.mem_cons_of_mem _ (h ▸ ih hx)

theorem sqlMax_isUB {l : List Int} {m : Int} (h : sqlMax l = some m) :
    ∀ x ∈ l, x ≤ m := by
  induction l generalizing m with
  | nil => simp
  | cons a xs ih =>
    simp only [sqlMax] at h
    cases hx : sqlMax xs with
    | none =>
      rw [hx] at h
      simp at h
      rw [sqlMax_eq_none_iff] at hx
      subst hx
      simp [h]
    | some m' =>
      rw [hx] at h
      simp at h
      intro x hmem
      rcases List.mem_cons.mp hmem with rfl | hmem
      · exact h ▸ le_max_left x m'
      · exact le_trans (ih hx x hmem) (h ▸ le_max_right a m')

theorem sqlMax_isSome_of_mem {l : List Int} {x : Int} (hx : x ∈ l) :
    ∃ m, sqlMax l = some m := by
  cases hl : sqlMax l with
  | none => rw [sqlMax_eq_none_iff] at hl; subst hl; simp at hx
  | some m => exact ⟨m, rfl⟩

/-- What a successful latest-row lookup guarantees: the row is stored,
is for the same station, is at or before `self`, and its moment bounds
every stored same-station row at or before `self`. -/
theorem get_latest_spec (moment code : α → Int) (self : α) (store : List α) (p : α)
    (h : StationCommon.get_latest_up_to_self moment code self store = some p) :
    p ∈ store ∧ code p = code self ∧ moment p ≤ moment self ∧
      ∀ x ∈ store, code x = code self → moment x ≤ moment self → moment x ≤ moment p := by
  unfold StationCommon.get_latest_up_to_self at h
  set cands := store.filter (fun r => decide (code r = code self) && decide (moment r ≤ moment self)) with hcands
  cases hm : sqlMax (cands.map moment) with
  | none => rw [hm] at h; simp at h
  | some m =>
    rw [hm] at h
    simp only at h
    have hpmem := List.mem_of_mem_head? h
    rw [List.mem_filter] at hpmem
    obtain ⟨hpstore, hpred⟩ := hpmem
    simp only [Bool.and_eq_true, decide_eq_true_eq] at hpred
    obtain ⟨hpcode, hpm⟩ := hpred
    have hmself : m ≤ moment self := by
      have := sqlMax_mem hm
      rw [List.mem_map] at this
      obtain ⟨y, hy, hym⟩ := this
      rw [List.mem_filter] at hy
      simp only [Bool.and_eq_true, decide_eq_true_eq] at hy
      exact hym ▸ hy.2.2
    refine ⟨hpstore, hpcode, hpm ▸ hmself, ?_⟩
    intro x hx hxc hxm
    have hxin : x ∈ cands := by
      rw [hcands, List.mem_filter]
      simp only [Bool.and_eq_true, decide_eq_true_eq]
      exact ⟨hx, hxc, hxm⟩
    have := sqlMax_isUB hm (moment x) (List.mem_map_of_mem moment hxin)
    exact hpm ▸ this

/-- The lookup succeeds whenever any same-station row at or before
`self` is stored. -/
theorem get_latest_isSome_of_mem (moment code : α → Int) (self : α) (store : List α)
    (x : α) (hx : x ∈ store) (hc : code x = code self) (hm : moment x ≤ moment self) :
    ∃ p, StationCommon.get_latest_up_to_self moment code self store = some p := by
  unfold StationCommon.get_latest_up_to_self
  set cands := store.filter (fun r => decide (code r = code self) && decide (moment r ≤ moment self)) with hcands
  have hxin : x ∈ cands := by
    rw [hcands, List.mem_filter]
    simp only [Bool.and_eq_true, decide_eq_true_eq]
    exact ⟨hx, hc, hm⟩
  obtain ⟨m, hmax⟩ := sqlMax_isSome_of_mem (List.mem_map_of_mem moment hxin)
  rw [hmax]
  simp only
  have := sqlMax_mem hmax
  rw [List.mem_map] at this
  obtain ⟨y, hy, hym⟩ := this
  rw [List.mem_filter] at hy
  simp only [Bool.and_eq_true, decide_eq_true_eq] at hy
  have hyin : y ∈ store.filter (fun r => decide (code r = code self) && decide (moment r = m)) := by
    rw [List.mem_filter]
    simp only [Bool.and_eq_true, decide_eq_true_eq]
    exact ⟨hy.1, hy.2.1, hym⟩
  cases hfil : store.filter (fun r => decide (code r = code self) && decide (moment r = m)) with
  | nil => rw [hfil] at hyin; simp at hyin
  | cons a as => exact ⟨a, rfl⟩

/-- Under the primary-key constraint the lookup returns exactly the
greatest same-station row at or before `self`. -/
theorem get_latest_eq_of_isGreatest (moment code : α → Int) (self : α) (store : List α)
    (hu : UniqueKeys moment code store) (A : α) (hA : A ∈ store)
    (hc : code A = code self) (hm : moment A ≤ moment self)
    (hub : ∀ x ∈ store, code x = code self → moment x ≤ moment self → moment x ≤ moment A) :
    StationCommon.get_latest_up_to_self moment code self store = some A := by
  obtain ⟨p, hp⟩ := get_latest_isSome_of_mem moment code self store A hA hc hm
  obtain ⟨hpstore, hpcode, hpm, hpub⟩ := get_latest_spec moment code self store p hp
  have h1 : moment A ≤ moment p := hpub A hA hc hm
  have h2 : moment p ≤ moment A := hub p hpstore hpcode hpm
  have : p = A := hu p hpstore A hA (hpcode.trans hc.symm) (le_antisymm h2 h1)
  rw [hp, this]

/-- The only result shapes of `save_if_changed`: skip, append, or the
temporal-order exception. -/
theorem saveIfChanged_shape (moment code : α → Int) (hcf : α → α → Bool)
    (self : α) (store : List α) :
    StationCommon.save_if_changed moment code hcf self store = .ok (0, store) ∨
    StationCommon.save_if_changed moment code hcf self store = .ok (1, store ++ [self]) ∨
    StationCommon.save_if_changed moment code hcf self store
      = .error (.vmsException "Previous is futher in the future than current") := by
  unfold StationCommon.save_if_changed
  cases StationCommon.get_latest_up_to_self moment code self store with
  | none => simp
  | some previous =>
    simp only
    split
    · simp
    · split
      · split <;> simp
      · simp

/-- The temporal branch of `save_if_changed` cannot fire: the lookup
only returns rows at or before `self.moment`. -/
theorem saveIfChanged_isOk (moment code : α → Int) (hcf : α → α → Bool)
    (self : α) (store : List α) :
    (StationCommon.save_if_changed moment code hcf self store).isOk = true := by
  unfold StationCommon.save_if_changed
  cases hgl : StationCommon.get_latest_up_to_self moment code self store with
  | none => rfl
  | some previous =>
    have hspec := get_latest_spec moment code self store previous hgl
    have hnl : ¬ (moment self < moment previous) := not_lt.mpr hspec.2.2.1
    simp only [if_neg hnl]
    split
    · split <;> rfl
    · rfl

/-- C10: the error branch of `save_if_changed` taken when
`self.moment < previous.moment` is unreachable for every record and
every store state, because `get_latest_up_to_self` only returns rows
whose moment is at most `self.moment`; `save_if_changed` therefore
never raises the temporal-order error. -/
theorem save_if_changed_temporal_guard_unreachable (moment code : α → Int)
    (has_changed : α → α → Bool) (self : α) (store : List α) :
    (StationCommon.save_if_changed moment code has_changed self store).isOk = true :=
  saveIfChanged_isOk moment code has_changed self store

/-- C3: `save_if_changed` is idempotent — after a call that stores a
record, a second call with a record of the same `station_id` and
`observed_at` (in particular an identical record) writes 0 rows,
leaves the table unchanged, and exactly one row with that
`(observed_at, station_id)` key exists. -/
theorem save_if_changed_idempotent (moment code : α → Int) (has_changed : α → α → Bool)
    (r r' : α) (store : List α)
    (h1 : StationCommon.save_if_changed moment code has_changed r store = .ok (1, store ++ [r]))
    (hm : moment r' = moment r) (hc : code r' = code r) :
    StationCommon.save_if_changed moment code has_changed r' (store ++ [r]) = .ok (0, store ++ [r]) ∧
      ((store ++ [r]).filter
        (fun x => decide (moment x = moment r) && decide (code x = code r))).length = 1 := by
  have hno : ∀ x ∈ store, ¬(code x = code r ∧ moment x = moment r) := by
    intro x hx hcon
    obtain ⟨hxc, hxm⟩ := hcon
    obtain ⟨p, hp⟩ := get_latest_isSome_of_mem moment code r store x hx hxc (le_of_eq hxm)
    obtain ⟨hpstore, hpcode, hpm, hub⟩ := get_latest_spec moment code r store p hp
    have hxp : moment x ≤ moment p := hub x hx hxc (le_of_eq hxm)
    have hpm' : moment p = moment r := le_antisymm hpm (hxm ▸ hxp)
    unfold StationCommon.save_if_changed at h1
    rw [hp] at h1
    simp only [if_neg (by rw [hpm']; exact lt_irrefl _ : ¬ moment r < moment p),
      if_neg (by rw [hpm']; exact lt_irrefl _ : ¬ moment p < moment r)] at h1
    simp at h1
  constructor
  · have hr : r ∈ store ++ [r] := List.mem_append_right store (List.mem_singleton.mpr rfl)
    obtain ⟨p, hp⟩ := get_latest_isSome_of_mem moment code r' (store ++ [r]) r hr hc.symm (le_of_eq hm.symm)
    obtain ⟨hpstore, hpcode, hpm, hub⟩ := get_latest_spec moment code r' (store ++ [r]) p hp
    have hrp : moment r ≤ moment p := hub r hr hc.symm (le_of_eq hm.symm)
    have hpm' : moment p = moment r' := le_antisymm hpm (hm ▸ hrp)
    unfold StationCommon.save_if_changed
    rw [hp]
    simp only [if_neg (by rw [hpm']; exact lt_irrefl _ : ¬ moment r' < moment p),
      if_neg (by rw [hpm']; exact lt_irrefl _ : ¬ moment p < moment r')]
  · rw [List.filter_append]
    have h2 : store.filter (fun x => decide (moment x = moment r) && decide (code x = code r)) = [] := by
      rw [List.filter_eq_nil_iff]
      intro x hx
      have := hno x hx
      simp only [Bool.and_eq_true, decide_eq_true_eq, not_and]
      intro hxm hxc
      exact this ⟨hxc, hxm⟩
    have h3 : [r].filter (fun x => decide (moment x = moment r) && decide (code x = code r)) = [r] := by
      simp
    rw [h2, h3]
    rfl

/-- C4: when `A` is the latest stored row of `B`'s station at or
before `B.observed_at` and is strictly earlier, `save_if_changed`
writes exactly one row when some field other than `moment` and `code`
differs (`has_changed`), and zero rows when all those fields are
equal. -/
theorem save_if_changed_monotonicity (store : List StationInfo) (A B : StationInfo)
    (hu : UniqueKeys StationInfo.moment StationInfo.code store)
    (hA : A ∈ store) (hcode : A.code = B.code) (hmom : A.moment < B.moment)
    (hlatest : ∀ x ∈ store, x.code = B.code → x.moment ≤ B.moment → x.moment ≤ A.moment) :
    (B.has_changed A = true →
      StationInfo.save_if_changed B store = .ok (1, store ++ [B])) ∧
    (B.has_changed A = false →
      StationInfo.save_if_changed B store = .ok (0, store)) := by
  have hgl := get_latest_eq_of_isGreatest StationInfo.moment StationInfo.code B store hu A hA
    hcode (le_of_lt hmom) hlatest
  unfold StationInfo.save_if_changed StationCommon.save_if_changed
  rw [hgl]
  simp only [if_neg (not_lt.mpr (le_of_lt hmom)), if_pos hmom]
  constructor <;> intro h <;> simp [h]

/-- C1 counterexample: station 1 has a stored row at moment 10; a
record at the strictly earlier moment 7 is submitted.  The claim says
this raises `TemporalOrderViolation` and writes 0 rows; the code finds
no prior at or before moment 7 and inserts the record, writing 1 row
and raising nothing. -/
theorem save_if_changed_earlier_record_inserts_cex :
    infoEarly.moment < infoLate.moment ∧ infoEarly.code = infoLate.code ∧
      StationInfo.save_if_changed infoEarly [infoLate]
        = .ok (1, [infoLate, infoEarly]) :=
  ⟨by decide, rfl, rfl⟩

/-- C1 (amended): a record whose `observed_at` is strictly less than
the latest stored observation of its station does NOT raise; it is
evaluated against the latest stored row at or before its own
`observed_at` (inserted when none exists), writing 0 or 1 rows. -/
theorem save_if_changed_earlier_record_no_error (r : StationInfo) (store : List StationInfo)
    (x : StationInfo) (hx : x ∈ store) (hc : x.code = r.code) (hlt : r.moment < x.moment) :
    (StationInfo.save_if_changed r store).isOk = true ∧
      (StationInfo.save_if_changed r store = .ok (0, store) ∨
       StationInfo.save_if_changed r store = .ok (1, store ++ [r])) := by
  refine ⟨saveIfChanged_isOk _ _ _ _ _, ?_⟩
  rcases saveIfChanged_shape StationInfo.moment StationInfo.code StationInfo.has_changed r store
    with h | h | h
  · exact Or.inl h
  · exact Or.inr h
  · have := saveIfChanged_isOk StationInfo.moment StationInfo.code StationInfo.has_changed r store
    rw [h] at this
    exact absurd this (by decide)

/-- C1 amended-claim witness at the counterexample input. -/
theorem save_if_changed_earlier_record_no_error_witness :
    (StationInfo.save_if_changed infoEarly [infoLate]).isOk = true ∧
      (StationInfo.save_if_changed infoEarly [infoLate] = .ok (0, [infoLate]) ∨
       StationInfo.save_if_changed infoEarly [infoLate] = .ok (1, [infoLate] ++ [infoEarly])) :=
  save_if_changed_earlier_record_no_error infoEarly [infoLate] infoLate
    (by decide) (by decide) (by decide)

/-- C3 witness: storing a fresh record then submitting it again. -/
theorem save_if_changed_idempotent_witness :
    StationCommon.save_if_changed StationInfo.moment StationInfo.code StationInfo.has_changed
        infoA ([] ++ [infoA]) = .ok (0, [] ++ [infoA]) ∧
      ((([] ++ [infoA] : List StationInfo)).filter
        (fun x => decide (x.moment = infoA.moment) && decide (x.code = infoA.code))).length = 1 :=
  save_if_changed_idempotent StationInfo.moment StationInfo.code StationInfo.has_changed
    infoA infoA [] rfl rfl rfl

/-- C4 witness: a later observation with a changed name after a stored
row writes exactly one row. -/
theorem save_if_changed_monotonicity_witness :
    StationInfo.save_if_changed infoB [infoA] = .ok (1, [infoA] ++ [infoB]) :=
  (save_if_changed_monotonicity [infoA] infoA infoB
    (by intro x hx y hy hc hm; rw [List.mem_singleton] at hx hy; rw [hx, hy])
    (by decide) (by decide) (by decide) (by decide)).1 (by decide)

theorem mem_insertKey {ks : List Int} {k k' : Int} :
    k ∈ insertKey ks k' ↔ k ∈ ks ∨ k = k' := by
  unfold insertKey
  split
  · constructor
    · exact Or.inl
    · rintro (h | rfl)
      · exact h
      · assumption
  · simp [List.mem_append, or_comm, eq_comm]

theorem mem_orderedKeysAux {l : List StationSample} {ks : List Int} {k : Int} :
    k ∈ orderedKeysAux ks l ↔ k ∈ ks ∨ ∃ s ∈ l, s._info.code = k := by
  induction l generalizing ks with
  | nil => simp [orderedKeysAux]
  | cons s rest ih =>
    simp only [orderedKeysAux, ih, mem_insertKey]
    constructor
    · rintro ((h | h) | ⟨t, ht, rfl⟩)
      · exact Or.inl h
      · exact Or.inr ⟨s, List.mem_cons_self _ _, h.symm⟩
      · exact Or.inr ⟨t, List.mem_cons_of_mem _ ht, rfl⟩
    · rintro (h | ⟨t, ht, rfl⟩)
      · exact Or.inl (Or.inl h)
      · rcases List.mem_cons.mp ht with rfl | ht
        · exact Or.inl (Or.inr rfl)
        · exact Or.inr ⟨t, ht, rfl⟩

theorem mem_orderedKeys {l : List StationSample} {k : Int} :
    k ∈ orderedKeys l ↔ ∃ s ∈ l, s._info.code = k := by
  unfold orderedKeys
  rw [mem_orderedKeysAux]
  simp

theorem lastProcessed_cons (p : Int × List StationSample)
    (rest : List (Int × List StationSample)) (last : Option (List StationSample)) :
    lastProcessed (p :: rest) last = lastProcessed rest (some (processGroup p.2)) := by
  cases rest with
  | nil => simp [lastProcessed]
  | cons q qs =>
    unfold lastProcessed
    rw [List.getLast?_cons_cons,
      List.getLast?_eq_getLast_of_ne_nil (l := q :: qs) (by simp)]

/-- When every oversized group filters down to at most one Operative
entry, the duplicate-handling loop finishes without raising, stores
the processed groups back, and leaves the last processed group in the
loop variable. -/
theorem dedupLoop_ok (bins : List (Int × List StationSample)) :
    ∀ (done : List (Int × List StationSample)) (last : Option (List StationSample)),
    (∀ p ∈ bins, p.2.length = 1 ∨ (operativeOnly p.2).length ≤ 1) →
    StationSample.dedupLoop bins done last
      = .ok (done ++ processedBins bins, lastProcessed bins last) := by
  induction bins with
  | nil =>
    intro done last h
    simp [StationSample.dedupLoop, processedBins, lastProcessed]
  | cons p rest ih =>
    intro done last h
    obtain ⟨code, samples⟩ := p
    have hp := h (code, samples) (List.mem_cons_self _ _)
    have hrest : ∀ q ∈ rest, q.2.length = 1 ∨ (operativeOnly q.2).length ≤ 1 :=
      fun q hq => h q (List.mem_cons_of_mem _ hq)
    by_cases h1 : samples.length = 1
    · have hpg : processGroup samples = samples := by simp [processGroup, h1]
      simp only [StationSample.dedupLoop, if_pos h1]
      rw [ih _ _ hrest, lastProcessed_cons]
      simp [processedBins, hpg, List.append_assoc]
    · have h2 : (operativeOnly samples).length ≤ 1 := by
        rcases hp with hl | hl
        · exact absurd hl h1
        · exact hl
      have h3 : ¬ (operativeOnly samples).length > 1 := not_lt.mpr h2
      have hpg : processGroup samples = operativeOnly samples := by simp [processGroup, h1]
      simp only [StationSample.dedupLoop, if_neg h1, if_neg h3]
      rw [ih _ _ hrest, lastProcessed_cons]
      simp [processedBins, hpg, List.append_assoc]

theorem mem_processGroup {s : StationSample} {g : List StationSample}
    (h : s ∈ processGroup g) : s ∈ g := by
  unfold processGroup at h
  split at h
  · exact h
  · exact List.mem_of_mem_filter h

/-- C2 (code bug): two singleton samples of distinct stations; the
claim (and the function's own docstring) requires both to pass through
exactly once, but the returned generator expression with swapped `for`
clauses yields the last group's sample once per station code: station
1's sample is lost and station 2's sample appears twice. -/
theorem remove_duplicate_code_loses_singletons_cex :
    sample1._info.code ≠ sample2._info.code ∧
    StationSample.remove_duplicate_code [sample1, sample2] = .ok [sample2, sample2] ∧
    sample1 ∉ [sample2, sample2] := by decide

/-- C6 (code bug): in a batch with a duplicate group of station 1
(one Operative, one Work in progress) plus a singleton of station 2,
the loop does keep only the Operative entry inside the bins, but the
buggy return yields only the last group's sample — the kept Operative
entry is absent from the output.  The second half of the claim holds:
two Operative duplicates raise the conflict error for the whole batch
(the source raises a bare `Exception`, modelled as `dataConflict`). -/
theorem remove_duplicate_code_drops_kept_operative_cex :
    s1op._info.state = .str "Operative" ∧
    s1wip._info.state = .str "Work in progress" ∧
    s1op._info.code = s1wip._info.code ∧
    StationSample.remove_duplicate_code [s1op, s1wip, sample2] = .ok [sample2, sample2] ∧
    s1op ∉ [sample2, sample2] ∧
    StationSample.remove_duplicate_code [s1op, s1opB, sample2]
      = .error (.dataConflict "Could not auto-fix duplicate samples found") := by decide

/-- C9: a duplicate group with no Operative entry (all other stations
appearing at most once) raises no error, and the station is silently
absent from the resolver's output: the group is filtered to nothing
and dropped. -/
theorem remove_duplicate_code_no_operative_group_dropped
    (l : List StationSample) (c : Int)
    (hlen : 2 ≤ (filterCode l c).length)
    (hnop : ∀ s ∈ l, s._info.code = c → s._info.state.pyEq (PyVal.str "Operative") = false)
    (hothers : ∀ c', c' ≠ c → (filterCode l c').length ≤ 1) :
    ∃ out, StationSample.remove_duplicate_code l = .ok out ∧
      ∀ s ∈ out, s._info.code ≠ c := by
  have hop_empty : operativeOnly (filterCode l c) = [] := by
    rw [operativeOnly, List.filter_eq_nil_iff]
    intro s hs
    rw [filterCode, List.mem_filter] at hs
    obtain ⟨hsl, hsc⟩ := hs
    rw [decide_eq_true_eq] at hsc
    rw [hnop s hsl hsc]
    simp
  have hpre : ∀ p ∈ groupByCode l, p.2.length = 1 ∨ (operativeOnly p.2).length ≤ 1 := by
    intro p hp
    rw [groupByCode, List.mem_map] at hp
    obtain ⟨k, hk, rfl⟩ := hp
    by_cases hkc : k = c
    · right
      show (operativeOnly (filterCode l k)).length ≤ 1
      rw [hkc, hop_empty]
      simp
    · left
      show (filterCode l k).length = 1
      have hle := hothers k hkc
      obtain ⟨s, hsl, hsc⟩ := mem_orderedKeys.mp hk
      have : s ∈ filterCode l k := by
        rw [filterCode, List.mem_filter]
        exact ⟨hsl, by rw [decide_eq_true_eq]; exact hsc⟩
      have := List.length_pos_of_mem this
      omega
  have hrun := dedupLoop_ok (groupByCode l) [] Option.none hpre
  have hcne : filterCode l c ≠ [] := by
    intro hnil
    rw [hnil] at hlen
    simp at hlen
  obtain ⟨s₀, hs₀⟩ := List.exists_mem_of_ne_nil _ hcne
  have hs₀l : s₀ ∈ l := List.mem_of_mem_filter hs₀
  have hs₀c : s₀._info.code = c := by
    rw [filterCode, List.mem_filter, decide_eq_true_eq] at hs₀
    exact hs₀.2
  have hbins_ne : groupByCode l ≠ [] := by
    intro hnil
    have : c ∈ orderedKeys l := mem_orderedKeys.mpr ⟨s₀, hs₀l, hs₀c⟩
    rw [groupByCode] at hnil
    rw [List.map_eq_nil_iff] at hnil
    rw [hnil] at this
    simp at this
  have hp₀ : (groupByCode l).getLast? = some ((groupByCode l).getLast hbins_ne) :=
    List.getLast?_eq_getLast_of_ne_nil hbins_ne
  have hp₀mem : (groupByCode l).getLast hbins_ne
      ∈ (orderedKeys l).map (fun k => (k, filterCode l k)) :=
    List.getLast_mem hbins_ne
  obtain ⟨k₀, hk₀, hp₀eq⟩ := List.mem_map.mp hp₀mem
  have hlastp : lastProcessed (groupByCode l) Option.none
      = some (processGroup (filterCode l k₀)) := by
    rw [lastProcessed, hp₀, ← hp₀eq]
  refine ⟨((processGroup (filterCode l k₀)).map
      (fun sample => ([] ++ processedBins (groupByCode l)).map (fun _ => sample))).flatten,
    ?_, ?_⟩
  · rw [StationSample.remove_duplicate_code, hrun, hlastp]
  · intro s hs
    rw [List.mem_flatten] at hs
    obtain ⟨L, hL, hsL⟩ := hs
    rw [List.mem_map] at hL
    obtain ⟨t, ht, rfl⟩ := hL
    rw [List.mem_map] at hsL
    obtain ⟨_, _, rfl⟩ := hsL
    have htg : t ∈ processGroup (filterCode l k₀) := ht
    by_cases hk₀c : k₀ = c
    · subst hk₀c
      have hne1 : ¬ (filterCode l k₀).length = 1 := by omega
      rw [processGroup, if_neg hne1, hop_empty] at htg
      simp at htg
    · have := mem_processGroup htg
      rw [filterCode, List.mem_filter, decide_eq_true_eq] at this
      rw [this.2]
      exact hk₀c

/-- C9 witness: two Work-in-progress samples of station 1 and nothing
else — no error, and station 1 is absent from the output. -/
theorem remove_duplicate_code_no_operative_group_dropped_witness :
    ∃ out, StationSample.remove_duplicate_code [w1, w2] = .ok out ∧
      ∀ s ∈ out, s._info.code ≠ 1 :=
  remove_duplicate_code_no_operative_group_dropped [w1, w2] 1 (by decide) (by decide)
    (by
      intro c' hne
      have hne1 : ¬((1 : Int) = c') := fun h => hne h.symm
      have e1 : w1._info.code = 1 := rfl
      have e2 : w2._info.code = 1 := rfl
      simp [filterCode, List.filter_cons, e1, e2, hne1])

theorem catchParse_isOk (msg : String) (r : Except VmsError α) :
    (catchParse msg r).isOk = r.isOk := by
  rcases r with e | a
  · rcases e with m | m | m | pe
    · rfl
    · rfl
    · rfl
    · cases pe <;> rfl
  · rfl

theorem gps_init_isOk (la lo : PyVal) :
    (GpsCoordinates.init la lo).isOk = true ↔
      (Python.float la).isOk = true ∧ (Python.float lo).isOk = true := by
  unfold GpsCoordinates.init
  cases hla : Python.float la with
  | ok a =>
    cases hlo : Python.float lo with
    | ok b => simp [Except.isOk, Except.toBool]
    | error e => cases e <;> simp [Except.isOk, Except.toBool]
  | error e => cases e <;> simp [Except.isOk, Except.toBool]

/-- C5 counterexample: a latitude of float infinity (JSON `Infinity`)
is not convertible to a *finite* real number, yet `GpsCoordinates`
construction succeeds — `float()` accepts infinities and NaN and the
code checks nothing further. -/
theorem gps_from_dict_accepts_inf_cex :
    (GpsCoordinates.from_dict gpsInf).isOk = true ∧
    specConvertibleToFiniteReal gpsInf.latitude = false := by decide

/-- C5 (amended): `GpsCoordinates` construction succeeds iff both the
latitude and longitude fields are present and convertible by `float()`
to a real value — finite or not (infinities and NaN are accepted); it
fails with an error otherwise. -/
theorem gps_from_dict_ok_iff (data : RawGps) :
    (GpsCoordinates.from_dict data).isOk = true ↔
      convertibleToReal data.latitude = true ∧ convertibleToReal data.longitude = true := by
  obtain ⟨la?, lo?⟩ := data
  rw [GpsCoordinates.from_dict, catchParse_isOk]
  cases la? with
  | none =>
    simp [getKey, convertibleToReal, Except.isOk, Except.toBool, Bind.bind, Except.bind]
  | some lv =>
    cases lo? with
    | none =>
      simp [getKey, convertibleToReal, Except.isOk, Except.toBool, Bind.bind, Except.bind]
    | some wv =>
      simp only [getKey, Bind.bind, Except.bind, convertibleToReal]
      exact gps_init_isOk lv wv

/-- C7: with every other field well-formed, a `dueDate` of `None`
parses successfully with `due_date` unset, and a numeric `dueDate`
(fractional seconds allowed) parses to its truncation. -/
theorem station_info_from_dict_due_date (m : Int) (e : RawStationInfo)
    (sv nv tv cv : PyVal) (b : Bool) (c : Int) (g : RawGps) (lv ov : PyVal) (la lo : PyFloat)
    (hs : e.state = some sv) (hn : e.name = some nv)
    (ht : e.type = some tv) (hb : VelibMetropoleApi.bool_from_yes_no_str tv = .ok b)
    (hc : e.code = some cv) (hci : Python.int cv = .ok c)
    (hg : e.gps = some g) (hla : g.latitude = some lv) (hlaf : Python.float lv = .ok la)
    (hlo : g.longitude = some ov) (hlof : Python.float ov = .ok lo) :
    StationInfo.from_dict m { e with dueDate := some PyVal.none }
      = .ok { moment := m, state := sv, name := nv, stype := b, code := c,
              due_date := Option.none, gps_latitude := la, gps_longitude := lo } ∧
    ∀ q : ℚ, StationInfo.from_dict m { e with dueDate := some (PyVal.float (.finite q)) }
      = .ok { moment := m, state := sv, name := nv, stype := b, code := c,
              due_date := some (Python.ratTruncTowardZero q),
              gps_latitude := la, gps_longitude := lo } := by
  constructor
  · unfold StationInfo.from_dict
    simp [hs, hn, ht, hb, hc, hci, hg, hla, hlaf, hlo, hlof, getKey, getGps, liftPy,
      catchParse, Bind.bind, Except.bind, pure, Except.pure]
  · intro q
    unfold StationInfo.from_dict
    have hdd : Python.int (PyVal.float (.finite q)) = .ok (Python.ratTruncTowardZero q) := rfl
    simp [hs, hn, ht, hb, hc, hci, hg, hla, hlaf, hlo, hlof, hdd, getKey, getGps, liftPy,
      catchParse, Bind.bind, Except.bind, pure, Except.pure]

/-- C7 witness: the docstring example entry, with `dueDate` nulled. -/
theorem station_info_from_dict_due_date_witness :
    StationInfo.from_dict 100 { rawEntryA with dueDate := some PyVal.none }
      = .ok { moment := 100, state := .str "Operative", name := .str "Assas - Luxembourg",
              stype := true, code := 6008, due_date := Option.none,
              gps_latitude := .finite 48, gps_longitude := .finite 2 } :=
  (station_info_from_dict_due_date 100 rawEntryA
    (.str "Operative") (.str "Assas - Luxembourg") (.str "yes") (.str "6008")
    true 6008 ⟨some (.float (.finite 48)), some (.float (.finite 2))⟩
    (.float (.finite 48)) (.float (.finite 2)) (.finite 48) (.finite 2)
    rfl rfl rfl rfl rfl (by decide) rfl rfl rfl rfl rfl).1

theorem saveIfChanged_append (moment code : α → Int) (hcf : α → α → Bool)
    (self : α) (store : List α) (n : Nat) (store' : List α)
    (h : StationCommon.save_if_changed moment code hcf self store = .ok (n, store')) :
    ∃ t, store' = store ++ t := by
  rcases saveIfChanged_shape moment code hcf self store with hs | hs | hs
  · rw [h] at hs
    injection hs with hs
    injection hs with _ hs
    exact ⟨[], by simp [hs]⟩
  · rw [h] at hs
    injection hs with hs
    injection hs with _ hs
    exact ⟨[self], hs⟩
  · rw [h] at hs
    exact absurd hs (by simp)

theorem save_all_appends (sample : StationSample) (db : Db) (n : Nat) (db' : Db)
    (h : sample.save_all_if_changed db = .ok (n, db')) :
    (∃ ti, db'.station_info = db.station_info ++ ti) ∧
    (∃ tr, db'.station_record = db.station_record ++ tr) := by
  unfold StationSample.save_all_if_changed at h
  cases h1 : StationInfo.save_if_changed sample._info db.station_info with
  | error e => rw [h1] at h; simp [Bind.bind, Except.bind] at h
  | ok p1 =>
    obtain ⟨n1, infos⟩ := p1
    rw [h1] at h
    simp only [Bind.bind, Except.bind] at h
    cases h2 : StationRecord.save_if_changed sample._record db.station_record with
    | error e => rw [h2] at h; simp at h
    | ok p2 =>
      obtain ⟨n2, records⟩ := p2
      rw [h2] at h
      simp only at h
      injection h with h
      injection h with _ h
      subst h
      exact ⟨saveIfChanged_append _ _ _ _ _ _ _ h1, saveIfChanged_append _ _ _ _ _ _ _ h2⟩

theorem processSamples_appends (samples : List StationSample) :
    ∀ (db : Db) (n : Nat) (db' : Db),
    App.processSamples samples db = .ok (n, db') →
    (∃ ti, db'.station_info = db.station_info ++ ti) ∧
    (∃ tr, db'.station_record = db.station_record ++ tr) := by
  induction samples with
  | nil =>
    intro db n db' h
    unfold App.processSamples at h
    injection h with h
    injection h with _ h
    subst h
    exact ⟨⟨[], by simp⟩, ⟨[], by simp⟩⟩
  | cons sample rest ih =>
    intro db n db' h
    unfold App.processSamples at h
    cases h1 : sample.save_all_if_changed db with
    | error e => rw [h1] at h; simp [Bind.bind, Except.bind] at h
    | ok p1 =>
      obtain ⟨n1, db1⟩ := p1
      rw [h1] at h
      simp only [Bind.bind, Except.bind] at h
      cases h2 : App.processSamples rest db1 with
      | error e => rw [h2] at h; simp at h
      | ok p2 =>
        obtain ⟨n2, db2⟩ := p2
        rw [h2] at h
        simp only at h
        injection h with h
        injection h with _ h
        subst h
        obtain ⟨⟨ti1, hi1⟩, ⟨tr1, hr1⟩⟩ := save_all_appends sample db n1 db1 h1
        obtain ⟨⟨ti2, hi2⟩, ⟨tr2, hr2⟩⟩ := ih db1 n2 db2 h2
        exact ⟨⟨ti1 ++ ti2, by rw [hi2, hi1, List.append_assoc]⟩,
               ⟨tr1 ++ tr2, by rw [hr2, hr1, List.append_assoc]⟩⟩

/-- C8: for every batch of samples and every starting history, the
committed history is either the pre-run history (when processing any
sample fails, no append from the batch is committed) or the fully
processed history, which extends the pre-run tables only by appended
rows (all appends committed together). -/
theorem do_work_batch_atomic (samples : List StationSample) (db : Db) :
    (∃ e, App.processSamples samples db = .error e ∧ App.commitBatch samples db = db) ∨
    (∃ n db', App.processSamples samples db = .ok (n, db') ∧
      App.commitBatch samples db = db' ∧
      (∃ ti, db'.station_info = db.station_info ++ ti) ∧
      (∃ tr, db'.station_record = db.station_record ++ tr)) := by
  cases h : App.processSamples samples db with
  | error e =>
    left
    exact ⟨e, rfl, by unfold App.commitBatch; rw [h]⟩
  | ok p =>
    obtain ⟨n, db'⟩ := p
    right
    obtain ⟨hi, hr⟩ := processSamples_appends samples db n db' h
    exact ⟨n, db', rfl, by unfold App.commitBatch; rw [h], hi, hr⟩

example : (GpsCoordinates.from_dict ⟨some (.float (.finite 48)), some (.float (.finite 2))⟩).isOk = true := by decide

example : (GpsCoordinates.from_dict ⟨Option.none, some (.float (.finite 2))⟩).isOk = false := by decide

example : (GpsCoordinates.from_dict ⟨some (.str "abc"), some (.float (.finite 2))⟩).isOk = false := by decide

example : Python.parseFloatString "inf" = some PyFloat.inf := by decide

example : Python.parseFloatString " -Infinity " = some PyFloat.ninf := by decide

example : Python.parseIntString "6008" = some 6008 := by decide

example : StationSample.remove_duplicate_code [] = .error (.pyError .nameError) := by decide

example : StationSample.remove_duplicate_code [s1op, s1wip] = .ok [s1op] := by decide

end Vms
